import Mathlib

/-!
Verification of the raft-cache ML service against its design specification.

The embedding covers `src/ml-service/app.py` (the `/predict` and `/health`
handlers) and `src/ml-service/train_model.py` (key hashing and the synthetic
training-data generator).  Python floats are modelled by real numbers, JSON
integers by `Int` (millisecond timestamps) and `Nat` (access counters, which
the data model declares non-negative).  Python's `float('inf')` sentinel for
"never accessed" is modelled by `Option ℝ` with `none` standing for infinity.
The HTTP transport (request parsing, status codes, CORS) is out of scope per
the specification; the handlers are modelled as total functions from the
already-parsed request data, with fallible paths returning `Except`.
-/

noncomputable section

namespace MLService

/-- Input record for one cache key, as read from the request body in
`predict` (app.py lines 92-96).  Each numeric field defaults to 0 when the
JSON key is absent, which is modelled by the caller passing 0. -/
structure KeyData where
  key : String
  access_count : ℕ
  last_access_ms : ℤ
  access_count_hour : ℕ
  access_count_day : ℕ

/-- Seconds since the last access, app.py line 99:
`(current_time - last_access_ms) / 1000 if last_access_ms > 0 else float('inf')`.
The infinite branch is modelled by `none`. -/
def time_since_last_sec (current_time last_access_ms : ℤ) : Option ℝ :=
  if 0 < last_access_ms then some (((current_time : ℝ) - (last_access_ms : ℝ)) / 1000)
  else none

/-- Recency score, app.py line 106:
`40 * np.exp(-time_since_last_sec / 60) if time_since_last_sec < float('inf') else 0`. -/
def recency_score : Option ℝ → ℝ
  | some t => 40 * Real.exp (-t / 60)
  | none => 0

/-- Frequency score, app.py line 110: `min(30, 10 * np.log1p(access_count))`;
`np.log1p x = log (1 + x)`. -/
def frequency_score (access_count : ℕ) : ℝ :=
  min 30 (10 * Real.log (1 + (access_count : ℝ)))

/-- Activity score, app.py lines 114-115:
`min(30, 10 * np.log1p(access_count_hour))`. -/
def activity_score (access_count_hour : ℕ) : ℝ :=
  min 30 (10 * Real.log (1 + (access_count_hour : ℝ)))

/-- Total heuristic score, app.py line 117: the sum of the three sub-scores. -/
def total_score (current_time : ℤ) (k : KeyData) : ℝ :=
  recency_score (time_since_last_sec current_time k.last_access_ms)
    + frequency_score k.access_count + activity_score k.access_count_hour

/-- app.py line 132. -/
def MAX_POSSIBLE_SCORE : ℝ := 100

/-- app.py line 137: `raw_prob = score_data["total_score"] / MAX_POSSIBLE_SCORE`. -/
def raw_probability (current_time : ℤ) (k : KeyData) : ℝ :=
  total_score current_time k / MAX_POSSIBLE_SCORE

/-- app.py line 139: `probability = max(0.05, min(0.95, raw_prob))`. -/
def clamped_probability (current_time : ℤ) (k : KeyData) : ℝ :=
  max 0.05 (min 0.95 (raw_probability current_time k))

/-- Python's `round(x, 4)`, used on app.py line 143 when serialising the
probability.  Modelled as rounding to the nearest multiple of `1/10000`;
Python rounds half-ulp ties to even while `round` rounds them up, but no
value in this development sits on a tie. -/
def round4 (x : ℝ) : ℝ := (round (x * 10000) : ℤ) / 10000

/-- One entry of the response list, app.py lines 141-153.  `willBeAccessed`
compares the unrounded clamped probability (line 144).  The `debug` block of
display-rounded copies of the sub-scores is not modelled; the sub-scores are
modelled directly by `recency_score`, `frequency_score`, `activity_score`. -/
structure Prediction where
  key : String
  probability : ℝ
  willBeAccessed : Prop

/-- Builds the response entry for one key at the effective current time. -/
def mkPrediction (current_time : ℤ) (k : KeyData) : Prediction :=
  { key := k.key
    probability := round4 (clamped_probability current_time k)
    willBeAccessed := clamped_probability current_time k ≥ 0.5 }

/-- Python's `max(list)` over a nonempty list, app.py line 87.  The `[]` case
is unreachable: the call sits behind the empty-keys check (line 80) and the
`if keys else 0` guard. -/
def list_max : List ℤ → ℤ
  | [] => 0
  | x :: xs => xs.foldl max x

/-- The only error the handler raises itself: app.py lines 80-81 return
`{"error": "No keys provided"}` with status 400 on an empty key list. -/
inductive PredictError where
  | NoKeysProvided

/-- app.py lines 86-87: when `currentTime` is absent or 0, the maximum
`last_access_ms` over the batch is substituted. -/
def effective_time (keys : List KeyData) (current_time : ℤ) : ℤ :=
  if current_time = 0 then list_max (keys.map KeyData.last_access_ms) else current_time

/-- The `/predict` handler, app.py lines 75-156, stripped of HTTP framing:
reject empty key lists, substitute the effective current time, then score
every key in input order.  No sorting and no other validation occur. -/
def predict (keys : List KeyData) (current_time : ℤ) :
    Except PredictError (List Prediction) :=
  if keys.isEmpty then Except.error PredictError.NoKeysProvided
  else Except.ok (keys.map (mkPrediction (effective_time keys current_time)))

/-- The `/health` handler, app.py lines 59-62: it unconditionally returns
`{"status": "healthy"}` with status 200, independent of any model state. -/
def health_status : String := "healthy"

/-- `hash_key`, train_model.py lines 29-31:
`int(hashlib.md5(key.encode()).hexdigest(), 16) % 10000 / 10000.0`.
The MD5 digest-to-integer step is an external library call and is abstracted
as the `digest` argument; everything proved below holds for every digest. -/
def hash_key (digest : String → ℕ) (key : String) : ℝ :=
  ((digest key % 10000 : ℕ) : ℝ) / 10000

/-- Business-hours adjustment of the hourly count, train_model.py lines 84-85:
`access_count_hour = int(access_count_hour * 1.5)` when
`9 <= hour_of_day <= 17 and day_of_week < 5`.  For a natural count `c`,
`int(c * 1.5)` truncates to `3 * c / 2` in natural division. -/
def adjust_count_hour (hour_of_day day_of_week c : ℕ) : ℕ :=
  if 9 ≤ hour_of_day ∧ hour_of_day ≤ 17 ∧ day_of_week < 5 then 3 * c / 2 else c

/-- Business-hours adjustment of the daily count, train_model.py line 86:
`access_count_day = int(access_count_day * 1.3)`.  For a natural count `c`,
`int(c * 1.3)` is `13 * c / 10` up to the one-ulp error of the binary double
`1.3`; nothing below depends on the exact multiplied value. -/
def adjust_count_day (hour_of_day day_of_week c : ℕ) : ℕ :=
  if 9 ≤ hour_of_day ∧ hour_of_day ≤ 17 ∧ day_of_week < 5 then 13 * c / 10 else c

/-- One generated row of `generate_synthetic_data`, train_model.py
lines 83-101. -/
structure TrainingExample where
  key_hash : ℝ
  hours_since_last_access : ℝ
  access_count_hour : ℕ
  access_count_day : ℕ
  hour_of_day : ℕ
  day_of_week : ℕ
  will_be_accessed : ℕ

/-- Builds one training example from the per-row random draws (the profile
sampling on lines 60-81 supplies `hours_raw`, `count_hour_raw`,
`count_day_raw` and `label`; the simulated clock supplies `hour_of_day` and
`day_of_week`).  Lines 84-86 apply the business-hours adjustment, lines 89-91
cap the adjusted values. -/
def make_example (key_hash_val : ℝ) (hours_raw : ℝ) (count_hour_raw count_day_raw : ℕ)
    (hour_of_day day_of_week : ℕ) (label : ℕ) : TrainingExample :=
  { key_hash := key_hash_val
    hours_since_last_access := min hours_raw 168
    access_count_hour := min (adjust_count_hour hour_of_day day_of_week count_hour_raw) 100
    access_count_day := min (adjust_count_day hour_of_day day_of_week count_day_raw) 500
    hour_of_day := hour_of_day
    day_of_week := day_of_week
    will_be_accessed := label }

/-- Concrete batch member: accessed twice, no recency or hourly signal. -/
def keyA : KeyData :=
  { key := "a", access_count := 2, last_access_ms := 0
    access_count_hour := 0, access_count_day := 0 }

/-- Concrete batch member: never accessed at all. -/
def keyB : KeyData :=
  { key := "b", access_count := 0, last_access_ms := 0
    access_count_hour := 0, access_count_day := 0 }

/-- Concrete batch member with a negative (malformed) last-access timestamp. -/
def keyNeg : KeyData :=
  { key := "n", access_count := 0, last_access_ms := -5000
    access_count_hour := 0, access_count_day := 0 }

/-- Concrete batch member: accessed once, no recency or hourly signal. -/
def keyOnce : KeyData :=
  { key := "c", access_count := 1, last_access_ms := 0
    access_count_hour := 0, access_count_day := 0 }

/-- Concrete batch member with a positive last-access timestamp. -/
def keyW : KeyData :=
  { key := "w", access_count := 0, last_access_ms := 5
    access_count_hour := 0, access_count_day := 0 }

end MLService

namespace MLService

/-! ### Helper lemmas -/

lemma recency_score_nonneg (o : Option ℝ) : 0 ≤ recency_score o := by
  cases o with
  | none => exact le_refl 0
  | some t =>
      have h := Real.exp_pos (-t / 60)
      simp only [recency_score]
      nlinarith

lemma log_score_bounds (n : ℕ) :
    0 ≤ min 30 (10 * Real.log (1 + (n : ℝ))) ∧
      min 30 (10 * Real.log (1 + (n : ℝ))) ≤ 30 := by
  constructor
  · refine le_min (by norm_num) ?_
    have h : (0 : ℝ) ≤ Real.log (1 + (n : ℝ)) := by
      apply Real.log_nonneg
      have := Nat.cast_nonneg (α := ℝ) n
      linarith
    linarith
  · exact min_le_left _ _

lemma frequency_score_bounds (n : ℕ) :
    0 ≤ frequency_score n ∧ frequency_score n ≤ 30 :=
  log_score_bounds n

lemma activity_score_bounds (n : ℕ) :
    0 ≤ activity_score n ∧ activity_score n ≤ 30 :=
  log_score_bounds n

lemma round4_fixed (z : ℤ) : round4 ((z : ℝ) / 10000) = (z : ℝ) / 10000 := by
  have h : ((z : ℝ) / 10000) * 10000 = (z : ℝ) := by field_simp
  rw [round4, h, round_intCast]

lemma round4_eval (z : ℤ) (x : ℝ) (h : x = (z : ℝ) / 10000) : round4 x = x := by
  rw [h]; exact round4_fixed z

lemma round4_mono {x y : ℝ} (h : x ≤ y) : round4 x ≤ round4 y := by
  have h1 : x * 10000 ≤ y * 10000 := by nlinarith
  have h2 : round (x * 10000) ≤ round (y * 10000) := by
    rw [round_eq, round_eq]
    exact Int.floor_mono (by linarith)
  rw [round4, round4]
  have h3 : ((round (x * 10000) : ℤ) : ℝ) ≤ ((round (y * 10000) : ℤ) : ℝ) := by
    exact_mod_cast h2
  linarith

lemma clamped_probability_bounds (current_time : ℤ) (k : KeyData) :
    0.05 ≤ clamped_probability current_time k ∧
      clamped_probability current_time k ≤ 0.95 := by
  constructor
  · exact le_max_left _ _
  · exact max_le (by norm_num) (min_le_left _ _)

lemma round4_clamped_bounds (current_time : ℤ) (k : KeyData) :
    0.05 ≤ round4 (clamped_probability current_time k) ∧
      round4 (clamped_probability current_time k) ≤ 0.95 := by
  obtain ⟨h1, h2⟩ := clamped_probability_bounds current_time k
  have e1 : round4 0.05 = 0.05 := round4_eval 500 _ (by norm_num)
  have e2 : round4 0.95 = 0.95 := round4_eval 9500 _ (by norm_num)
  constructor
  · calc (0.05 : ℝ) = round4 0.05 := e1.symm
      _ ≤ round4 (clamped_probability current_time k) := round4_mono h1
  · calc round4 (clamped_probability current_time k) ≤ round4 0.95 := round4_mono h2
      _ = 0.95 := e2

lemma clamped_probability_of_zero (current_time : ℤ) (k : KeyData)
    (h1 : k.access_count = 0) (h2 : k.access_count_hour = 0)
    (h3 : ¬ 0 < k.last_access_ms) :
    clamped_probability current_time k = 0.05 := by
  have hts : time_since_last_sec current_time k.last_access_ms = none := by
    rw [time_since_last_sec, if_neg h3]
  have htot : total_score current_time k = 0 := by
    rw [total_score, hts, h1, h2]
    simp [recency_score, frequency_score, activity_score, Real.log_one]
  rw [clamped_probability, raw_probability, htot, MAX_POSSIBLE_SCORE]
  norm_num

lemma probability_of_zero (current_time : ℤ) (k : KeyData)
    (h1 : k.access_count = 0) (h2 : k.access_count_hour = 0)
    (h3 : ¬ 0 < k.last_access_ms) :
    (mkPrediction current_time k).probability = 0.05 := by
  have h := clamped_probability_of_zero current_time k h1 h2 h3
  show round4 (clamped_probability current_time k) = 0.05
  rw [h]
  exact round4_eval 500 _ (by norm_num)

lemma activity_score_zero : activity_score 0 = 0 := by
  have h : (1 : ℝ) + ((0 : ℕ) : ℝ) = 1 := by norm_num
  rw [activity_score, h, Real.log_one]
  norm_num

lemma frequency_score_one : frequency_score 1 = 10 * Real.log 2 := by
  have h : (1 : ℝ) + ((1 : ℕ) : ℝ) = 2 := by norm_num
  rw [frequency_score, h]
  apply min_eq_right
  have := Real.log_two_lt_d9
  linarith

lemma log_three_gt_one : 1 < Real.log 3 := by
  rw [Real.lt_log_iff_exp_lt (by norm_num : (0 : ℝ) < 3)]
  have := Real.exp_one_lt_d9
  linarith

lemma log_three_le_three : Real.log 3 ≤ 3 := by
  rw [Real.log_le_iff_le_exp (by norm_num : (0 : ℝ) < 3)]
  have := Real.add_one_le_exp 3
  linarith

lemma frequency_score_two : frequency_score 2 = 10 * Real.log 3 := by
  have h : (1 : ℝ) + ((2 : ℕ) : ℝ) = 3 := by norm_num
  rw [frequency_score, h]
  apply min_eq_right
  have := log_three_le_three
  linarith

lemma recency_score_le_40 (current_time last_access_ms : ℤ)
    (h : last_access_ms ≤ current_time) :
    recency_score (time_since_last_sec current_time last_access_ms) ≤ 40 := by
  rw [time_since_last_sec]
  split_ifs with hp
  · show 40 * Real.exp (-(((current_time : ℝ) - (last_access_ms : ℝ)) / 1000) / 60) ≤ 40
    have hc : (last_access_ms : ℝ) ≤ (current_time : ℝ) := by exact_mod_cast h
    have hnum : 0 ≤ ((current_time : ℝ) - (last_access_ms : ℝ)) / 1000 :=
      div_nonneg (by linarith) (by norm_num)
    have harg : -(((current_time : ℝ) - (last_access_ms : ℝ)) / 1000) / 60 ≤ 0 := by
      have he : -(((current_time : ℝ) - (last_access_ms : ℝ)) / 1000) / 60 =
          -((((current_time : ℝ) - (last_access_ms : ℝ)) / 1000) / 60) := by ring
      rw [he]
      exact neg_nonpos.mpr (div_nonneg hnum (by norm_num))
    have hexp : Real.exp (-(((current_time : ℝ) - (last_access_ms : ℝ)) / 1000) / 60) ≤ 1 :=
      Real.exp_le_one_iff.mpr harg
    linarith
  · show (0 : ℝ) ≤ 40
    norm_num

lemma predict_ok_of_ne_nil (keys : List KeyData) (current_time : ℤ) (h : keys ≠ []) :
    predict keys current_time =
      Except.ok (keys.map (mkPrediction (effective_time keys current_time))) := by
  cases keys with
  | nil => exact absurd rfl h
  | cons a as => rfl

lemma mkPrediction_key (current_time : ℤ) (k : KeyData) :
    (mkPrediction current_time k).key = k.key := rfl

lemma total_score_keyOnce : total_score 1000 keyOnce = 10 * Real.log 2 := by
  have h1 : time_since_last_sec 1000 keyOnce.last_access_ms = none := by
    rw [time_since_last_sec, if_neg]
    decide
  rw [total_score, h1]
  show 0 + frequency_score 1 + activity_score 0 = 10 * Real.log 2
  rw [frequency_score_one, activity_score_zero]
  ring

lemma clamped_keyOnce : clamped_probability 1000 keyOnce = Real.log 2 / 10 := by
  have hl := Real.log_two_lt_d9
  have hg := Real.log_two_gt_d9
  have he : 10 * Real.log 2 / MAX_POSSIBLE_SCORE = Real.log 2 / 10 := by
    rw [MAX_POSSIBLE_SCORE]; ring
  rw [clamped_probability, raw_probability, total_score_keyOnce, he,
    min_eq_right (by linarith), max_eq_right (by linarith)]

lemma round4_log2_div10 : round4 (Real.log 2 / 10) = 0.0693 := by
  have hl := Real.log_two_lt_d9
  have hg := Real.log_two_gt_d9
  have harg : Real.log 2 / 10 * 10000 = 1000 * Real.log 2 := by ring
  rw [round4, harg, round_eq]
  have hfl : ⌊1000 * Real.log 2 + 1 / 2⌋ = 693 := by
    apply Int.floor_eq_iff.mpr
    constructor
    · push_cast; linarith
    · push_cast; linarith
  rw [hfl]
  norm_num

lemma total_score_keyA : total_score 1000 keyA = 10 * Real.log 3 := by
  have h1 : time_since_last_sec 1000 keyA.last_access_ms = none := by
    rw [time_since_last_sec, if_neg]
    decide
  rw [total_score, h1]
  show 0 + frequency_score 2 + activity_score 0 = 10 * Real.log 3
  rw [frequency_score_two, activity_score_zero]
  ring

lemma clamped_keyA : clamped_probability 1000 keyA = Real.log 3 / 10 := by
  have hg := log_three_gt_one
  have hl := log_three_le_three
  have he : 10 * Real.log 3 / MAX_POSSIBLE_SCORE = Real.log 3 / 10 := by
    rw [MAX_POSSIBLE_SCORE]; ring
  rw [clamped_probability, raw_probability, total_score_keyA, he,
    min_eq_right (by linarith), max_eq_right (by linarith)]

lemma le_foldl_max_init (l : List ℤ) : ∀ a : ℤ, a ≤ l.foldl max a := by
  induction l with
  | nil => intro a; exact le_refl a
  | cons y ys ih => intro a; exact le_trans (le_max_left a y) (ih (max a y))

lemma le_foldl_max_of_mem (x : ℤ) (l : List ℤ) :
    ∀ a : ℤ, x ∈ l → x ≤ l.foldl max a := by
  induction l with
  | nil => intro a hx; exact absurd hx (List.not_mem_nil x)
  | cons y ys ih =>
      intro a hx
      rcases List.mem_cons.mp hx with h | h
      · subst h
        exact le_trans (le_max_right a x) (le_foldl_max_init ys (max a x))
      · exact ih (max a y) h

lemma foldl_max_mem (l : List ℤ) : ∀ a : ℤ, l.foldl max a = a ∨ l.foldl max a ∈ l := by
  induction l with
  | nil => intro a; exact Or.inl rfl
  | cons y ys ih =>
      intro a
      rcases ih (max a y) with h | h
      · rcases max_choice a y with h2 | h2
        · exact Or.inl (by rw [show (y :: ys).foldl max a = ys.foldl max (max a y) from rfl,
            h, h2])
        · refine Or.inr ?_
          rw [show (y :: ys).foldl max a = ys.foldl max (max a y) from rfl, h, h2]
          exact List.mem_cons_self y ys
      · exact Or.inr (List.mem_cons_of_mem y h)

lemma list_max_is_max {l : List ℤ} (h : l ≠ []) :
    list_max l ∈ l ∧ ∀ x ∈ l, x ≤ list_max l := by
  cases l with
  | nil => exact absurd rfl h
  | cons y ys =>
      constructor
      · rcases foldl_max_mem ys y with h2 | h2
        · rw [show list_max (y :: ys) = ys.foldl max y from rfl, h2]
          exact List.mem_cons_self y ys
        · exact List.mem_cons_of_mem y h2
      · intro x hx
        rcases List.mem_cons.mp hx with h2 | h2
        · subst h2
          exact le_foldl_max_init ys x
        · exact le_foldl_max_of_mem x ys y h2

/-! ### Claim theorems -/

/-- C5: `predict` rejects an empty key set: for every current time, the result
on the empty key list is an error (app.py lines 80-81), so no predictions and
no eviction decision are produced. -/
theorem C5_empty_batch_rejected (current_time : ℤ) :
    predict [] current_time = Except.error PredictError.NoKeysProvided := rfl

/-- C7: the heuristic recency sub-score is strictly decreasing in the finite
seconds-since-last-access argument: for non-negative `t1 < t2` the score at
`t1` exceeds the score at `t2`. -/
theorem C7_recency_strictly_decreasing (t1 t2 : ℝ) (_h0 : 0 ≤ t1) (h : t1 < t2) :
    recency_score (some t2) < recency_score (some t1) := by
  simp only [recency_score]
  have hexp : Real.exp (-t2 / 60) < Real.exp (-t1 / 60) := by
    apply Real.exp_lt_exp.mpr
    linarith
  linarith

/-- Witness for C7 at `t1 = 0`, `t2 = 60`. -/
theorem C7_witness :
    (0 : ℝ) ≤ 0 ∧ (0 : ℝ) < 60 ∧
      recency_score (some 60) < recency_score (some 0) :=
  ⟨le_refl 0, by norm_num, C7_recency_strictly_decreasing 0 60 (le_refl 0) (by norm_num)⟩

/-- C8: the key hash is `digest(key) % 10000 / 10000.0` for the fixed MD5
digest; for every digest and key the value lies in `[0, 1)`, and the function
is pure, so two calls with the same key give the same value. -/
theorem C8_hash_key_unit_interval (digest : String → ℕ) (key : String) :
    0 ≤ hash_key digest key ∧ hash_key digest key < 1 ∧
      hash_key digest key = hash_key digest key := by
  refine ⟨?_, ?_, rfl⟩
  · apply div_nonneg (Nat.cast_nonneg _) (by norm_num)
  · rw [hash_key, div_lt_one (by norm_num)]
    have h : digest key % 10000 < 10000 := Nat.mod_lt _ (by norm_num)
    exact_mod_cast h

/-- C9: every synthetic training example satisfies the caps
`hours_since_last_access ≤ 168`, `access_count_hour ≤ 100`,
`access_count_day ≤ 500`, for all random draws and in particular after the
business-hours multiplication, because the caps (train_model.py lines 89-91)
are applied after the adjustment (lines 84-86). -/
theorem C9_training_caps (key_hash_val hours_raw : ℝ)
    (count_hour_raw count_day_raw hour_of_day day_of_week label : ℕ) :
    (make_example key_hash_val hours_raw count_hour_raw count_day_raw
        hour_of_day day_of_week label).hours_since_last_access ≤ 168 ∧
      (make_example key_hash_val hours_raw count_hour_raw count_day_raw
        hour_of_day day_of_week label).access_count_hour ≤ 100 ∧
      (make_example key_hash_val hours_raw count_hour_raw count_day_raw
        hour_of_day day_of_week label).access_count_day ≤ 500 :=
  ⟨min_le_right _ _, min_le_right _ _, min_le_right _ _⟩

/-- C1 (counterexample): the response of `predict` is not an EvictionDecision
with predictions sorted ascending by probability.  app.py lines 129-156 build
the predictions in input order and return only `{"predictions": [...]}` with
no sort, no `evictKey` and no `confidence`: on the batch `[keyA, keyB]` the
first listed prediction (key "a", probability at least 0.1) has a strictly
larger probability than the second (key "b", probability 0.05), so the list
is not ascending and its first element is not the minimum-probability key. -/
theorem C1_counterexample :
    predict [keyA, keyB] 1000 =
        Except.ok [mkPrediction 1000 keyA, mkPrediction 1000 keyB] ∧
      (mkPrediction 1000 keyB).probability < (mkPrediction 1000 keyA).probability := by
  refine ⟨rfl, ?_⟩
  have hb : (mkPrediction 1000 keyB).probability = 0.05 :=
    probability_of_zero 1000 keyB rfl rfl (by decide)
  have ha : (0.1 : ℝ) ≤ (mkPrediction 1000 keyA).probability := by
    show (0.1 : ℝ) ≤ round4 (clamped_probability 1000 keyA)
    rw [clamped_keyA]
    have h01 : round4 0.1 = 0.1 := round4_eval 1000 0.1 (by norm_num)
    calc (0.1 : ℝ) = round4 0.1 := h01.symm
      _ ≤ round4 (Real.log 3 / 10) := round4_mono (by have := log_three_gt_one; linarith)
  rw [hb]
  linarith

/-- C1 (amended): for every non-empty batch, `predict` returns one
Prediction per key in the input order (no sorting, no evictKey, no
confidence): the returned keys are exactly the input keys in order. -/
theorem C1_predictions_in_input_order (keys : List KeyData) (current_time : ℤ)
    (h : keys ≠ []) :
    ∃ preds, predict keys current_time = Except.ok preds ∧
      preds.map Prediction.key = keys.map KeyData.key ∧
      preds.length = keys.length := by
  refine ⟨keys.map (mkPrediction (effective_time keys current_time)),
    predict_ok_of_ne_nil keys current_time h, ?_, by simp⟩
  rw [List.map_map]
  rfl

/-- Witness for C1 on the two-key batch. -/
theorem C1_order_witness :
    ([keyA, keyB] ≠ ([] : List KeyData)) ∧
      ∃ preds, predict [keyA, keyB] 1000 = Except.ok preds ∧
        preds.map Prediction.key = [keyA, keyB].map KeyData.key ∧
        preds.length = [keyA, keyB].length :=
  ⟨by simp, C1_predictions_in_input_order [keyA, keyB] 1000 (by simp)⟩

/-- C2 (code bug witness): the service never raises a ModelUnavailable
condition and never reflects model state in its health report.  `health`
(app.py lines 59-62) unconditionally answers healthy, and `predict` answers
every request with heuristic scores: on a key with no history it returns the
heuristic floor probability 0.05 instead of failing, even though the module
docstring advertises a RandomForest classifier and the model trained at
startup (app.py lines 25-56) is never consulted. -/
theorem C2_always_healthy_heuristic_served :
    health_status = "healthy" ∧
      predict [keyB] 1000 = Except.ok [mkPrediction 1000 keyB] ∧
      (mkPrediction 1000 keyB).probability = 0.05 :=
  ⟨rfl, rfl, probability_of_zero 1000 keyB rfl rfl (by decide)⟩

/-- C3 (counterexample): the returned probability does not equal
`clamp(total_score / 100, 0.05, 0.95)` exactly, because app.py line 143
serialises `round(probability, 4)`.  For a key accessed once and never
since, the clamp value is `log 2 / 10 = 0.0693147...` while the response
carries `0.0693`. -/
theorem C3_counterexample :
    predict [keyOnce] 1000 = Except.ok [mkPrediction 1000 keyOnce] ∧
      (mkPrediction 1000 keyOnce).probability ≠
        max 0.05 (min 0.95 (total_score 1000 keyOnce / MAX_POSSIBLE_SCORE)) := by
  refine ⟨rfl, ?_⟩
  show round4 (clamped_probability 1000 keyOnce) ≠ clamped_probability 1000 keyOnce
  rw [clamped_keyOnce, round4_log2_div10]
  intro he
  have hg := Real.log_two_gt_d9
  have : Real.log 2 = 0.693 := by linarith
  linarith

/-- C3 (amended): for every key the returned probability equals
`clamp(total_score / 100, 0.05, 0.95)` rounded to four decimal places
(app.py lines 137-143), and consequently every probability the heuristic
strategy outputs lies in the closed interval `[0.05, 0.95]` — never exactly
0 or 1 — for all input access counts and timestamps. -/
theorem C3_probability_clamped (current_time : ℤ) (k : KeyData) :
    (mkPrediction current_time k).probability =
        round4 (max 0.05 (min 0.95 (total_score current_time k / MAX_POSSIBLE_SCORE))) ∧
      0.05 ≤ (mkPrediction current_time k).probability ∧
      (mkPrediction current_time k).probability ≤ 0.95 :=
  ⟨rfl, (round4_clamped_bounds current_time k).1, (round4_clamped_bounds current_time k).2⟩

/-- C4: the heuristic total score is the sum of exactly the three sub-scores;
recency is `40 * exp(-secondsSinceLastAccess / 60)` when a prior access
exists and 0 when `last_access_ms` is 0; and under the data-model
precondition that the last-access timestamp is at most the current time,
recency lies in `[0, 40]`, frequency and activity in `[0, 30]` (their
formulas are `min 30 (10 * log (1 + count))` by definition), and the total
in `[0, 100]` (app.py lines 99-117). -/
theorem C4_subscore_decomposition (current_time : ℤ) (k : KeyData)
    (h : k.last_access_ms ≤ current_time) :
    total_score current_time k =
        recency_score (time_since_last_sec current_time k.last_access_ms)
          + frequency_score k.access_count + activity_score k.access_count_hour ∧
      (0 < k.last_access_ms →
        recency_score (time_since_last_sec current_time k.last_access_ms) =
          40 * Real.exp (-(((current_time : ℝ) - (k.last_access_ms : ℝ)) / 1000) / 60)) ∧
      (k.last_access_ms = 0 →
        recency_score (time_since_last_sec current_time k.last_access_ms) = 0) ∧
      (0 ≤ recency_score (time_since_last_sec current_time k.last_access_ms) ∧
        recency_score (time_since_last_sec current_time k.last_access_ms) ≤ 40) ∧
      ((0 ≤ frequency_score k.access_count ∧ frequency_score k.access_count ≤ 30) ∧
        (0 ≤ activity_score k.access_count_hour ∧ activity_score k.access_count_hour ≤ 30)) ∧
      (0 ≤ total_score current_time k ∧ total_score current_time k ≤ 100) := by
  have hr0 := recency_score_nonneg (time_since_last_sec current_time k.last_access_ms)
  have hr40 := recency_score_le_40 current_time k.last_access_ms h
  have hf := frequency_score_bounds k.access_count
  have ha := activity_score_bounds k.access_count_hour
  refine ⟨rfl, ?_, ?_, ⟨hr0, hr40⟩, ⟨hf, ha⟩, ?_, ?_⟩
  · intro hp
    rw [time_since_last_sec, if_pos hp]
    rfl
  · intro h0
    rw [time_since_last_sec, if_neg]
    · rfl
    · rw [h0]
      exact lt_irrefl 0
  · rw [total_score]
    linarith [hf.1, ha.1]
  · rw [total_score]
    linarith [hf.2, ha.2]

/-- Witness for C4 at `keyW` (last access at 5 ms) and current time 5 ms. -/
theorem C4_witness :
    keyW.last_access_ms ≤ (5 : ℤ) ∧
      0 ≤ total_score 5 keyW ∧ total_score 5 keyW ≤ 100 :=
  ⟨by decide, (C4_subscore_decomposition 5 keyW (by decide)).2.2.2.2.2⟩

/-- C6 (counterexample): a batch containing a key with a negative (malformed)
last-access timestamp is not rejected: `predict` scores it and returns a
prediction for it (probability 0.05), contradicting the claim that such a
batch fails with InvalidInput and produces no predictions. -/
theorem C6_counterexample :
    predict [keyNeg] 1000 = Except.ok [mkPrediction 1000 keyNeg] ∧
      (mkPrediction 1000 keyNeg).probability = 0.05 :=
  ⟨rfl, probability_of_zero 1000 keyNeg rfl rfl (by decide)⟩

/-- C6 (amended): `predict` performs no validation of access histories.  The
only rejected input is the empty key set; every non-empty batch — including
batches with negative or otherwise malformed timestamps — is accepted and
every one of its keys is scored (app.py lines 80-96 read the fields with
defaults and never check them). -/
theorem C6_no_history_validation (keys : List KeyData) (current_time : ℤ)
    (h : keys ≠ []) :
    predict keys current_time =
      Except.ok (keys.map (mkPrediction (effective_time keys current_time))) :=
  predict_ok_of_ne_nil keys current_time h

/-- Witness for C6 on the malformed single-key batch. -/
theorem C6_witness :
    ([keyNeg] ≠ ([] : List KeyData)) ∧
      predict [keyNeg] 1000 =
        Except.ok ([keyNeg].map (mkPrediction (effective_time [keyNeg] 1000))) :=
  ⟨by simp, C6_no_history_validation [keyNeg] 1000 (by simp)⟩

/-- C10: when the request's `currentTime` is absent or 0, `predict`
substitutes the maximum `last_access_ms` of the batch (app.py lines 86-87)
and scores every key against that substituted time; a key holding that
maximum, when it is positive, is scored with zero seconds since last access
and therefore recency sub-score 40 (app.py lines 99-106). -/
theorem C10_default_current_time (keys : List KeyData) (k : KeyData)
    (hne : keys ≠ []) (hk : k ∈ keys)
    (hmax : ∀ k2 ∈ keys, k2.last_access_ms ≤ k.last_access_ms)
    (hpos : 0 < k.last_access_ms) :
    predict keys 0 =
        Except.ok (keys.map (mkPrediction (list_max (keys.map KeyData.last_access_ms)))) ∧
      list_max (keys.map KeyData.last_access_ms) = k.last_access_ms ∧
      time_since_last_sec (list_max (keys.map KeyData.last_access_ms))
          k.last_access_ms = some 0 ∧
      recency_score
        (time_since_last_sec (list_max (keys.map KeyData.last_access_ms))
          k.last_access_ms) = 40 := by
  have hmne : keys.map KeyData.last_access_ms ≠ [] := by
    intro hc
    exact hne (List.map_eq_nil_iff.mp hc)
  obtain ⟨hmem, hub⟩ := list_max_is_max hmne
  have hlm : list_max (keys.map KeyData.last_access_ms) = k.last_access_ms := by
    apply le_antisymm
    · obtain ⟨k0, hk0, he⟩ := List.mem_map.mp hmem
      rw [← he]
      exact hmax k0 hk0
    · exact hub _ (List.mem_map_of_mem _ hk)
  have hts : time_since_last_sec (list_max (keys.map KeyData.last_access_ms))
      k.last_access_ms = some 0 := by
    rw [hlm, time_since_last_sec, if_pos hpos]
    congr 1
    rw [sub_self, zero_div]
  have hr : recency_score (some (0 : ℝ)) = 40 := by
    show 40 * Real.exp (-(0 : ℝ) / 60) = 40
    rw [neg_zero, zero_div, Real.exp_zero, mul_one]
  refine ⟨?_, hlm, hts, by rw [hts]; exact hr⟩
  rw [predict_ok_of_ne_nil keys 0 hne]
  have he : effective_time keys 0 = list_max (keys.map KeyData.last_access_ms) := by
    rw [effective_time, if_pos rfl]
  rw [he]

/-- Witness for C10 on a single-key batch whose key was last accessed at a
positive timestamp. -/
theorem C10_witness :
    ([keyW] ≠ ([] : List KeyData)) ∧ keyW ∈ [keyW] ∧
      (∀ k2 ∈ [keyW], k2.last_access_ms ≤ keyW.last_access_ms) ∧
      0 < keyW.last_access_ms ∧
      recency_score
        (time_since_last_sec (list_max ([keyW].map KeyData.last_access_ms))
          keyW.last_access_ms) = 40 :=
  ⟨by simp, by simp, by simp, by decide,
    (C10_default_current_time [keyW] keyW (by simp) (by simp) (by simp) (by decide)).2.2.2⟩

end MLService

end
